import Mathlib

/-!
Verification of the file delivery subsystem (file_upload.cpp).

The development shallowly embeds the data model and operations of the
uploader: the pending-task store (priority queue plus dedup set), the
enqueue operation, the worker's pop and failure requeue, the transport
outcome classification, the success rename, and the reconciler's
directory scan.  Machine integers (time_t, long) are modelled as Nat/Int;
times in this subsystem are non-negative wall-clock seconds and no
arithmetic here approaches an overflow boundary.
-/

/-- Modelled from the spec: the delivery configuration struct `file_data` is
declared in rtl_airband.h, which is not part of the provided sources; its
fields are those the uploader code reads, named as the code names them
(spec name: DeliveryConfig). -/
structure file_data where
  upload_url : String
  delete_after_upload : Bool
  upload_retry_interval : Nat
  dated_subdirectories : Bool
  suffix : String
  basedir : String
  upload_pending_on_start : Bool
  deriving DecidableEq, Repr

/-- `upload_task` (file_upload.cpp lines 16-20): path, config snapshot,
next eligible attempt time. -/
structure upload_task where
  path : String
  config : file_data
  next_try : Nat
  deriving DecidableEq, Repr

/-- `task_compare` (line 23): the priority-queue comparator.  With
std::priority_queue (a max-heap w.r.t. its comparator) this makes the top
element one of minimal `next_try`. -/
def task_compare (a b : upload_task) : Bool :=
  decide (a.next_try > b.next_try)

/-- The shared store: `upload_queue` (the priority queue's contents, as a
multiset of pending tasks) and `queued_files` (the dedup set of paths,
as a duplicate-free list). -/
structure StoreState where
  upload_queue : List upload_task
  queued_files : List String
  deriving DecidableEq, Repr

/-- `enqueue_upload` (lines 65-73).  Returns the new store state and
whether the condition variable was notified (i.e. the worker woken).
Mirrors: early return on empty path or empty url; `queued_files.insert`
succeeds only when the path is absent, and only then is a task with
`next_try = 0` pushed and the worker notified. -/
def enqueue_upload (path : String) (data : file_data) (s : StoreState) :
    StoreState × Bool :=
  if path = "" ∨ data.upload_url = "" then (s, false)
  else if path ∈ s.queued_files then (s, false)
  else ({ upload_queue := s.upload_queue ++ [⟨path, data, 0⟩],
          queued_files := path :: s.queued_files }, true)

/-- `upload_file` (lines 33-63), as a function of the observable inputs:
whether `curl_easy_init` succeeded, the `CURLcode` result of
`curl_easy_perform` (0 = CURLE_OK), and the remote HTTP response code.
`http_code` starts at 0 and is fetched only when the perform succeeded;
the outcome is `res == CURLE_OK && http_code >= 200 && http_code < 300`. -/
def upload_file (curl_init_ok : Bool) (res : Nat) (response_code : Int) : Bool :=
  if curl_init_ok = false then false
  else
    let http_code : Int := if res = 0 then response_code else 0
    decide (res = 0) && decide (http_code ≥ 200) && decide (http_code < 300)

/-- The element `std::priority_queue::top()` yields, over the queue's
contents: the maximum w.r.t. `task_compare`, i.e. a task of minimal
`next_try` (ties resolved arbitrarily by the heap; here: first minimum). -/
def queue_top : List upload_task → Option upload_task
  | [] => none
  | t :: ts => some (ts.foldl (fun m u => if task_compare m u then u else m) t)

/-- Remove the first occurrence of a task (the effect of
`upload_queue.pop()` on the multiset of queued tasks). -/
def erase_task : List upload_task → upload_task → List upload_task
  | [], _ => []
  | u :: us, t => if u = t then us else u :: erase_task us t

/-- The worker's guarded pop (lines 84-94): the top task is taken only
once `top().next_try <= now`; otherwise the worker waits (modelled as
`none`). -/
def take_ready (q : List upload_task) (now : Nat) :
    Option (upload_task × List upload_task) :=
  match queue_top q with
  | none => none
  | some t => if t.next_try ≤ now then some (t, erase_task q t) else none

/-- Lines 92-94: pop the ready task and release its dedup key
(`queued_files.erase(task.path)`). -/
def pop_step (s : StoreState) (now : Nat) : Option (upload_task × StoreState) :=
  match take_ready s.upload_queue now with
  | none => none
  | some (t, q) =>
      some (t, { upload_queue := q, queued_files := s.queued_files.erase t.path })

/-- The failure requeue (lines 112-116): `next_try` is set to
`now + upload_retry_interval`, the path is re-inserted into the dedup set
(`std::set::insert`: no effect when already present), and the task is
pushed unconditionally. -/
def requeue_with_delay (task : upload_task) (now : Nat) (s : StoreState) :
    StoreState :=
  let t : upload_task := { task with next_try := now + task.config.upload_retry_interval }
  { upload_queue := s.upload_queue ++ [t],
    queued_files :=
      if task.path ∈ s.queued_files then s.queued_files
      else task.path :: s.queued_files }

/-- A concrete delivery configuration used for witnesses. -/
def demo_cfg : file_data :=
  { upload_url := "http://example/upload", delete_after_upload := false,
    upload_retry_interval := 30, dated_subdirectories := false,
    suffix := "", basedir := "/rec", upload_pending_on_start := true }

lemma foldl_top_min (l : List upload_task) (a : upload_task) :
    (l.foldl (fun m u => if task_compare m u then u else m) a).next_try ≤ a.next_try ∧
    ∀ u ∈ l, (l.foldl (fun m u => if task_compare m u then u else m) a).next_try ≤ u.next_try := by
  induction l generalizing a with
  | nil => simp
  | cons b l ih =>
    simp only [List.foldl_cons]
    have step : (if task_compare a b then b else a).next_try ≤ a.next_try ∧
        (if task_compare a b then b else a).next_try ≤ b.next_try := by
      split
      · rename_i hc
        simp only [task_compare, decide_eq_true_eq] at hc
        omega
      · rename_i hc
        simp only [task_compare, decide_eq_true_eq] at hc
        omega
    obtain ⟨h1, h2⟩ := ih (if task_compare a b then b else a)
    refine ⟨le_trans h1 step.1, ?_⟩
    intro u hu
    cases hu with
    | head => exact le_trans h1 step.2
    | tail _ hmem => exact h2 u hmem

lemma foldl_top_mem (l : List upload_task) (a : upload_task) :
    l.foldl (fun m u => if task_compare m u then u else m) a = a ∨
    l.foldl (fun m u => if task_compare m u then u else m) a ∈ l := by
  induction l generalizing a with
  | nil => left; rfl
  | cons b l ih =>
    simp only [List.foldl_cons]
    rcases ih (if task_compare a b then b else a) with h | h
    · rw [h]
      split
      · right; exact List.mem_cons_self _ _
      · left; rfl
    · right; exact List.mem_cons_of_mem _ h

lemma queue_top_mem {q : List upload_task} {t : upload_task}
    (h : queue_top q = some t) : t ∈ q := by
  cases q with
  | nil => cases h
  | cons a l =>
    simp only [queue_top, Option.some.injEq] at h
    rcases foldl_top_mem l a with h2 | h2
    · rw [← h, h2]; exact List.mem_cons_self _ _
    · rw [← h]; exact List.mem_cons_of_mem _ h2

lemma queue_top_min {q : List upload_task} {t : upload_task}
    (h : queue_top q = some t) : ∀ u ∈ q, t.next_try ≤ u.next_try := by
  cases q with
  | nil => cases h
  | cons a l =>
    simp only [queue_top, Option.some.injEq] at h
    intro u hu
    obtain ⟨h1, h2⟩ := foldl_top_min l a
    cases hu with
    | head => exact h ▸ h1
    | tail _ hmem => exact h ▸ h2 u hmem

lemma take_ready_some {q : List upload_task} {now : Nat} {t : upload_task}
    {q' : List upload_task} (h : take_ready q now = some (t, q')) :
    t.next_try ≤ now ∧ t ∈ q ∧ ∀ u ∈ q, t.next_try ≤ u.next_try := by
  unfold take_ready at h
  split at h
  · cases h
  · rename_i t0 hq
    split at h
    · rename_i hle
      simp only [Option.some.injEq, Prod.mk.injEq] at h
      obtain ⟨rfl, -⟩ := h
      exact ⟨hle, queue_top_mem hq, queue_top_min hq⟩
    · cases h

/-- C6: the worker never takes a task before its scheduled time, and the
popped task is minimal in `next_attempt` among all tasks pending at that
moment: whenever `take_ready` yields a task at time `now`, that task has
`next_try <= now` and `next_try` no greater than any queued task's. -/
theorem take_ready_not_early_and_minimal (q : List upload_task) (now : Nat)
    (t : upload_task) (q' : List upload_task)
    (h : take_ready q now = some (t, q')) :
    t.next_try ≤ now ∧ ∀ u ∈ q, t.next_try ≤ u.next_try :=
  ⟨(take_ready_some h).1, (take_ready_some h).2.2⟩

/-- Witness for C6 at a concrete two-task queue: the later-scheduled task
at time 5 is passed over and the minimal one (time 3) is returned, its
deadline having elapsed at time 10. -/
theorem take_ready_not_early_and_minimal_witness :
    take_ready [⟨"/rec/a.mp3", demo_cfg, 5⟩, ⟨"/rec/b.mp3", demo_cfg, 3⟩] 10 =
      some (⟨"/rec/b.mp3", demo_cfg, 3⟩, [⟨"/rec/a.mp3", demo_cfg, 5⟩]) ∧
    (3 : Nat) ≤ 10 :=
  ⟨by decide,
   (take_ready_not_early_and_minimal
      [⟨"/rec/a.mp3", demo_cfg, 5⟩, ⟨"/rec/b.mp3", demo_cfg, 3⟩] 10
      ⟨"/rec/b.mp3", demo_cfg, 3⟩ [⟨"/rec/a.mp3", demo_cfg, 5⟩] (by decide)).1⟩

/-- C7: enqueue is a silent no-op (store returned unchanged, worker not
woken) exactly when the path is empty, the endpoint url is empty, or the
path already has a pending task; otherwise a task with `next_try = 0` is
appended, the path joins the dedup set, and the worker is notified. -/
theorem enqueue_upload_noop_iff (path : String) (d : file_data) (s : StoreState) :
    (enqueue_upload path d s = (s, false) ↔
      (path = "" ∨ d.upload_url = "" ∨ path ∈ s.queued_files)) ∧
    (¬(path = "" ∨ d.upload_url = "" ∨ path ∈ s.queued_files) →
      enqueue_upload path d s =
        ({ upload_queue := s.upload_queue ++ [⟨path, d, 0⟩],
           queued_files := path :: s.queued_files }, true)) := by
  by_cases h1 : path = "" ∨ d.upload_url = ""
  · refine ⟨⟨fun _ => by tauto, fun _ => by simp [enqueue_upload, h1]⟩, ?_⟩
    intro hc
    exact absurd (by tauto) hc
  · by_cases h2 : path ∈ s.queued_files
    · refine ⟨⟨fun _ => by tauto, fun _ => by simp [enqueue_upload, h1, h2]⟩, ?_⟩
      intro hc
      exact absurd (by tauto) hc
    · push_neg at h1
      refine ⟨⟨fun h => ?_, fun h => ?_⟩, fun _ => by simp [enqueue_upload, h1, h2]⟩
      · exfalso
        have hC : ¬(path = "" ∨ d.upload_url = "") := by tauto
        unfold enqueue_upload at h
        rw [if_neg hC, if_neg h2] at h
        simpa using congrArg Prod.snd h
      · exact absurd h (by tauto)

/-- Witness for C7: at an empty store, enqueuing a non-empty path with a
non-empty endpoint inserts exactly one task with `next_try = 0` and wakes
the worker. -/
theorem enqueue_upload_noop_iff_witness :
    ¬("/rec/a.mp3" = "" ∨ demo_cfg.upload_url = "" ∨
       "/rec/a.mp3" ∈ (⟨[], []⟩ : StoreState).queued_files) ∧
    enqueue_upload "/rec/a.mp3" demo_cfg ⟨[], []⟩ =
      ({ upload_queue := [⟨"/rec/a.mp3", demo_cfg, 0⟩],
         queued_files := ["/rec/a.mp3"] }, true) :=
  ⟨by decide,
   (enqueue_upload_noop_iff "/rec/a.mp3" demo_cfg ⟨[], []⟩).2 (by decide)⟩

/-- C8: after a failure at time `now`, the task is reinserted with
`next_try = now + retry_interval`, its dedup membership is restored, and
the requeued task is never yielded by `take_ready` before that deadline. -/
theorem requeue_with_delay_reschedules (s : StoreState) (task : upload_task)
    (now : Nat) :
    (({ task with next_try := now + task.config.upload_retry_interval } : upload_task) ∈
        (requeue_with_delay task now s).upload_queue) ∧
    task.path ∈ (requeue_with_delay task now s).queued_files ∧
    (∀ m q', take_ready (requeue_with_delay task now s).upload_queue m =
        some ({ task with next_try := now + task.config.upload_retry_interval }, q') →
      now + task.config.upload_retry_interval ≤ m) := by
  refine ⟨?_, ?_, ?_⟩
  · simp [requeue_with_delay]
  · simp only [requeue_with_delay]
    split
    · assumption
    · exact List.mem_cons_self _ _
  · intro m q' h
    exact (take_ready_some h).1

/-- Witness for C8: requeuing a failed task at time 10 with retry
interval 30 schedules it at 40, and `take_ready` first yields it at 40. -/
theorem requeue_with_delay_reschedules_witness :
    take_ready (requeue_with_delay ⟨"/rec/a.mp3", demo_cfg, 0⟩ 10
        ⟨[], []⟩).upload_queue 40 = some (⟨"/rec/a.mp3", demo_cfg, 40⟩, []) ∧
    10 + demo_cfg.upload_retry_interval ≤ 40 :=
  ⟨by decide,
   (requeue_with_delay_reschedules ⟨[], []⟩ ⟨"/rec/a.mp3", demo_cfg, 0⟩ 10).2.2
     40 [] (by decide)⟩

/-- The store after the interleaving C1 singles out: enqueue "p"; the
worker pops it at time 0 (releasing its dedup key, lines 92-94); a
producer enqueues "p" again while the attempt is in flight; the attempt
fails and is requeued at time 10 (lines 112-116). -/
def interleaved_state : StoreState :=
  let s1 := (enqueue_upload "p" demo_cfg ⟨[], []⟩).1
  match pop_step s1 0 with
  | some (t, s2) => requeue_with_delay t 10 ((enqueue_upload "p" demo_cfg s2).1)
  | none => s1

/-- Number of pending tasks for a given path. -/
def count_path (p : String) (q : List upload_task) : Nat :=
  q.countP (fun t => decide (t.path = p))

/-- C1 fails on the code: enqueuing a path twice before pickup is indeed a
no-op (first conjunct), but the failure requeue pushes unconditionally
while `std::set::insert`'s result is ignored, so the interleaving
enqueue-pop-enqueue-requeue leaves TWO pending tasks for "p". -/
theorem interleaving_breaks_dedup_invariant :
    (enqueue_upload "p" demo_cfg ((enqueue_upload "p" demo_cfg ⟨[], []⟩).1)).1 =
      (enqueue_upload "p" demo_cfg ⟨[], []⟩).1 ∧
    pop_step (enqueue_upload "p" demo_cfg ⟨[], []⟩).1 0 =
      some (⟨"p", demo_cfg, 0⟩, ⟨[], []⟩) ∧
    count_path "p" interleaved_state.upload_queue = 2 := by
  decide

def find_last_go (c : Char) : List Char → Nat → Option Nat → Option Nat
  | [], _, acc => acc
  | x :: xs, i, acc => find_last_go c xs (i + 1) (if x = c then some i else acc)

/-- `std::string::find_last_of(c)`: index of the last occurrence of `c`,
`none` standing for `npos`. -/
def find_last_of (cs : List Char) (c : Char) : Option Nat :=
  find_last_go c cs 0 none

/-- The fixed already-uploaded marker token (sizeof - 1 = 9 characters). -/
def uploaded_marker : List Char := "_uploaded".data

/-- The success rename (lines 102-108): the marker is inserted before the
last '.' of the FULL PATH string (`renamed.find_last_of` runs on the whole
path), or appended when the path has no '.' at all;
`std::string::insert(pos, s)` places `s` before position `pos`. -/
def rename_target (p : String) : String :=
  match find_last_of p.data '.' with
  | some dot => String.mk (p.data.take dot ++ uploaded_marker ++ p.data.drop dot)
  | none => String.mk (p.data ++ uploaded_marker)

/-- Lines 145-146: the filename stem — everything before the last '.', or
the whole name when it has none. -/
def stem_of (fname : List Char) : List Char :=
  match find_last_of fname '.' with
  | some dot => fname.take dot
  | none => fname

/-- `s.size() >= suf.size() && s.substr(s.size() - suf.size()) == suf`
(the shape of the marker test at line 147 and the suffix test at
line 150). -/
def ends_with (s suf : List Char) : Bool :=
  decide (suf.length ≤ s.length) && decide (s.drop (s.length - suf.length) = suf)

/-- The suffix test of line 150 on whole strings. -/
def str_ends_with (s suf : String) : Bool :=
  ends_with s.data suf.data

/-- `ent->d_name[0] == '.'` (line 138). -/
def starts_with_dot (n : String) : Bool :=
  match n.data with
  | [] => false
  | c :: _ => decide (c = '.')

/-- A directory entry as `readdir` presents it: a regular file, a
subdirectory (readable, carrying its own listing, or one whose `opendir`
would fail), or an entry of another `d_type`. -/
inductive FsEntry where
  | reg (name : String)
  | dirOk (name : String) (contents : List FsEntry)
  | dirUnreadable (name : String)
  | other (name : String)

def FsEntry.name : FsEntry → String
  | .reg n => n
  | .dirOk n _ => n
  | .dirUnreadable n => n
  | .other n => n

/-- The body of `scan_directory`'s readdir loop (lines 137-154), returning
the paths passed to `enqueue_upload` in order: hidden names are skipped;
subdirectories are entered only when `dated_subdirectories` is set (an
unreadable one contributes nothing, lines 133-135); a regular file is
skipped when its stem ends with the marker, then filtered by suffix. -/
def scan_entries (cfg : file_data) (dir : String) : List FsEntry → List String
  | [] => []
  | ent :: rest =>
      (if starts_with_dot ent.name then []
       else
         match ent with
         | .dirOk n contents =>
             if cfg.dated_subdirectories then scan_entries cfg (dir ++ "/" ++ n) contents
             else []
         | .dirUnreadable _ => []
         | .reg n =>
             let path := dir ++ "/" ++ n
             if ends_with (stem_of n.data) uploaded_marker then []
             else if cfg.suffix = "" ∨ str_ends_with path cfg.suffix then [path]
             else []
         | .other _ => []) ++ scan_entries cfg dir rest

/-- `scan_directory` (lines 132-156): `none` is a directory `opendir`
cannot open — the function returns at once (lines 133-135). -/
def scan_directory (cfg : file_data) (dir : String) (d : Option (List FsEntry)) :
    List String :=
  match d with
  | none => []
  | some entries => scan_entries cfg dir entries

/-- Spec-side per-file filter, as the claim words it: not hidden, stem does
not end with the already-uploaded marker, and the suffix filter is empty or
the full path ends with it. -/
def passes_filters (cfg : file_data) (dir : String) (n : String) : Bool :=
  (!starts_with_dot n) &&
  (!ends_with (stem_of n.data) uploaded_marker) &&
  (decide (cfg.suffix = "") || str_ends_with (dir ++ "/" ++ n) cfg.suffix)

/-- Spec-side scan: enqueue exactly the regular files passing the filters,
descending into non-hidden subdirectories exactly when recursion is
configured. -/
def scan_spec (cfg : file_data) (dir : String) : List FsEntry → List String
  | [] => []
  | .reg n :: rest =>
      (if passes_filters cfg dir n then [dir ++ "/" ++ n] else []) ++
        scan_spec cfg dir rest
  | .dirOk n contents :: rest =>
      (if cfg.dated_subdirectories && !starts_with_dot n then
         scan_spec cfg (dir ++ "/" ++ n) contents
       else []) ++ scan_spec cfg dir rest
  | .dirUnreadable _ :: rest => scan_spec cfg dir rest
  | .other _ :: rest => scan_spec cfg dir rest

lemma scan_entries_eq_spec (cfg : file_data) (dir : String) (l : List FsEntry) :
    scan_entries cfg dir l = scan_spec cfg dir l := by
  induction dir, l using scan_entries.induct cfg with
  | case1 dir => simp [scan_entries, scan_spec]
  | case2 dir ent rest ih1 ih2 =>
    cases ent with
    | reg n =>
      simp only [scan_entries, scan_spec, FsEntry.name]
      rw [ih2]
      congr 1
      cases h1 : starts_with_dot n with
      | true => simp [passes_filters, h1]
      | false =>
        cases h2 : ends_with (stem_of n.data) uploaded_marker with
        | true => simp [passes_filters, h1, h2]
        | false =>
          by_cases h3 : cfg.suffix = ""
          · simp [passes_filters, h1, h2, h3]
          · cases h4 : str_ends_with (dir ++ "/" ++ n) cfg.suffix with
            | true => simp [passes_filters, h1, h2, h3, h4]
            | false => simp [passes_filters, h1, h2, h3, h4]
    | dirOk n contents =>
      simp only [scan_entries, scan_spec, FsEntry.name]
      rw [ih2]
      congr 1
      by_cases h1 : starts_with_dot n = true
      · simp [h1]
      · have h1f : starts_with_dot n = false := by simpa using h1
        by_cases h2 : cfg.dated_subdirectories = true
        · simp [h1f, h2, ih1]
        · have h2f : cfg.dated_subdirectories = false := by simpa using h2
          simp [h1f, h2f]
    | dirUnreadable n =>
      simp only [scan_entries, scan_spec, FsEntry.name, ite_self,
        List.nil_append]
      exact ih2
    | other n =>
      simp only [scan_entries, scan_spec, FsEntry.name, ite_self,
        List.nil_append]
      exact ih2

/-- A suffix-filtering configuration for the claim's concrete scenario. -/
def mp3_cfg : file_data := { demo_cfg with suffix := ".mp3" }

/-- C5: the reconciler's scan enqueues exactly the regular files that pass
all filters (hidden-dot skip, marker-stem skip, suffix filter, descent
only when configured) — the source scan coincides with the spec-side
characterization — and on the claim's concrete directory exactly a.mp3 is
enqueued. -/
theorem scan_directory_enqueues_exactly_filtered (cfg : file_data)
    (dir : String) (entries : List FsEntry) :
    scan_directory cfg dir (some entries) = scan_spec cfg dir entries ∧
    scan_directory mp3_cfg "d"
        (some [.reg "a.mp3", .reg "a_uploaded.mp3", .reg ".hidden.mp3"]) =
      ["d/a.mp3"] :=
  ⟨scan_entries_eq_spec cfg dir entries, by
    simp only [scan_directory, scan_entries, FsEntry.name]
    decide⟩

/-- C3 fails on the code: the success rename computes the marker position
from the FULL PATH while the reconciler computes the stem from the file
name alone, so the two fall out of lockstep.  Renaming "/a.d/clip"
produces "/a_uploaded.d/clip", whose file name "clip" carries no marker in
its stem; a subsequent scan of that directory re-enqueues exactly the
renamed file. -/
theorem renamed_file_matches_pending_again :
    rename_target "/a.d/clip" = "/a_uploaded.d/clip" ∧
    scan_directory demo_cfg "/a_uploaded.d" (some [.reg "clip"]) =
      [rename_target "/a.d/clip"] := by
  refine ⟨by decide, ?_⟩
  simp only [scan_directory, scan_entries, FsEntry.name]
  decide

/-- C4 fails on the code: line 103 runs `find_last_of('.')` on the whole
path, not on the file name, so for a dotted directory with a dotless file
name the marker lands in the directory component instead of being appended
to the name; ordinary names with an extension behave as the claim says. -/
theorem rename_marker_lands_in_directory_component :
    rename_target "/a/clip.mp3" = "/a/clip_uploaded.mp3" ∧
    rename_target "/a.d/clip" = "/a_uploaded.d/clip" ∧
    rename_target "/a.d/clip" ≠ "/a.d/clip_uploaded" := by
  decide

/-- C10: scanning a directory that cannot be opened is a silent no-op:
`opendir` fails and the function returns at once (lines 133-135), so
nothing is enqueued and folding the (empty) enqueue list over any store
leaves it unchanged. -/
theorem scan_unopenable_directory_noop (cfg : file_data) (dir : String)
    (s : StoreState) :
    scan_directory cfg dir none = [] ∧
    (scan_directory cfg dir none).foldl
        (fun st p => (enqueue_upload p cfg st).1) s = s :=
  ⟨rfl, rfl⟩

/-- Events of one pass of the worker loop body (lines 79-119), at the
granularity relevant to lock discipline. -/
inductive WorkerEv where
  | lockMutex
  | unlockMutex
  | cvWait
  | popQueue
  | eraseDedup
  | netUpload
  | fsUnlink
  | fsRename
  | insertDedup
  | pushQueue
  | cvNotify
  deriving DecidableEq, Repr

/-- One pass of the worker loop body, translated from lines 79-119.  The
loop is entered holding `queue_mutex` (the unique_lock is acquired at line
78), so traces are evaluated at lock depth 1.  `cvWait` stands for the
condition-variable waits at lines 81 and 88, which hold no lock while
blocked and re-acquire it before returning; branch flags: queue empty
(line 80), top not yet due (line 87), upload outcome (line 97), delete
flag (line 99). -/
def worker_iteration (queueEmpty topNotReady uploadOk deleteAfter : Bool) :
    List WorkerEv :=
  if queueEmpty then [.cvWait]
  else if topNotReady then [.cvWait]
  else
    [.popQueue, .eraseDedup, .unlockMutex, .netUpload] ++
    (if uploadOk then (if deleteAfter then [.fsUnlink] else [.fsRename])
     else [.lockMutex, .insertDedup, .pushQueue, .cvNotify, .unlockMutex]) ++
    [.lockMutex]

/-- Checks that no network event occurs at positive lock depth. -/
def no_net_while_locked : Nat → List WorkerEv → Bool
  | _, [] => true
  | d, WorkerEv.lockMutex :: r => no_net_while_locked (d + 1) r
  | d, WorkerEv.unlockMutex :: r => no_net_while_locked (d - 1) r
  | d, WorkerEv.netUpload :: r => (d == 0) && no_net_while_locked d r
  | d, _ :: r => no_net_while_locked d r

/-- C9: in every branch of the worker loop body the store mutex is
released before the network delivery is invoked and re-acquired only to
apply the outcome, so the lock is never held across a network call — and
the check is not vacuous: the delivering branches do contain a network
event. -/
theorem worker_never_holds_lock_across_network :
    (∀ a b c d : Bool, no_net_while_locked 1 (worker_iteration a b c d) = true) ∧
    WorkerEv.netUpload ∈ worker_iteration false false true false := by
  constructor
  · intro a b c d
    cases a <;> cases b <;> cases c <;> cases d <;> decide
  · decide

/-- C2: the delivery attempt's outcome is Success iff the transport handle
initialized, the transport call returned CURLE_OK, and the HTTP status is
in [200,300); the edge statuses 199 and 300 yield Failure, as does a
failed transport-handle initialization. -/
theorem upload_file_success_iff (init : Bool) (res : Nat) (code : Int) :
    (upload_file init res code = true ↔
      (init = true ∧ res = 0 ∧ 200 ≤ code ∧ code < 300)) ∧
    upload_file true 0 199 = false ∧
    upload_file true 0 300 = false ∧
    upload_file false 0 250 = false := by
  refine ⟨?_, by decide, by decide, by decide⟩
  cases init with
  | false => simp [upload_file]
  | true =>
    by_cases hres : res = 0
    · subst hres
      simp [upload_file]
    · simp [upload_file, hres]
